import Mathlib

/-
Verification of the statistical-arbitrage core: spread mathematics, the
signal debounce state machine, the live-monitor control flow, the paper
exchange adapter, the execution coordinator, and the WebSocket
subscription set.  Prices, fees and times are modelled as rationals;
stateful Python methods become explicit state-passing functions; raised
exceptions become explicit error values.
-/

/-- A cached ticker quote: bid, ask and last price. -/
structure Quote where
  bid : ℚ
  ask : ℚ
  last : ℚ
deriving DecidableEq

namespace Metrics

/-- Modelled from the spec: the function `calculate_net_spread` is imported
by `services/live_monitor.py` from `utils/metrics` and exercised by
`test_fee_calculation.py`, but its definition is not among the source
files.  Per the spec, the fee cost is `price * (feeA + feeB)` and the net
spread is `grossSpread - feeCost`; the percentage is the net spread as a
percentage of the price.  Returns (net spread, net spread pct, fee cost). -/
def calculate_net_spread (gross_spread price taker_fee_a taker_fee_b : ℚ) :
    ℚ × ℚ × ℚ :=
  let fee_cost := price * (taker_fee_a + taker_fee_b)
  let net_spread := gross_spread - fee_cost
  let net_spread_pct := if price = 0 then 0 else net_spread / price * 100
  (net_spread, net_spread_pct, fee_cost)

end Metrics

namespace LiveMonitor

/-- Gross executable spread, translated from
`services/live_monitor.py` lines 292-302: the two cross-direction
differences are `askA - bidB` and `askB - bidA`; the favorable gross
spread is the minimum of their absolute values, negated when
`askA - bidB` is negative. -/
def grossSpread (askA bidA askB bidB : ℚ) : ℚ :=
  let spread_a_to_b := askA - bidB
  let spread_b_to_a := askB - bidA
  let g := min |spread_a_to_b| |spread_b_to_a|
  if spread_a_to_b < 0 then -g else g

/-- The trading thresholds read from the configuration in
`LiveMonitor._check_signals` (lines 413-418). -/
structure TradingConfig where
  z_score_entry : ℚ
  z_score_exit : ℚ
  min_entry_ticks : ℕ
  min_exit_ticks : ℕ
deriving DecidableEq

/-- Per-symbol signal state: the `in_position` flag and the two
persistence counters from `signal_counters` (entry, exit). -/
structure SignalState where
  in_position : Bool
  entryCount : ℕ
  exitCount : ℕ
deriving DecidableEq

/-- A decision event emitted through `emit_signal_triggered`. -/
inductive Decision
  | ENTRY
  | EXIT
deriving DecidableEq

/-- Counter update of `LiveMonitor._check_signals`, lines 426-447: the
entry counter accumulates while the entry condition holds (not in
position, |z| above the entry threshold, positive net spread pct) and the
exit counter while the exit condition holds (in position, |z| below the
exit threshold); each branch zeroes the other counter, and when neither
condition holds both counters reset to zero. -/
def update_counters (cfg : TradingConfig) (st : SignalState)
    (z_score net_spread_pct : ℚ) : SignalState :=
  if st.in_position = false ∧ |z_score| > cfg.z_score_entry ∧ net_spread_pct > 0 then
    ⟨st.in_position, st.entryCount + 1, 0⟩
  else if st.in_position = true ∧ |z_score| < cfg.z_score_exit then
    ⟨st.in_position, 0, st.exitCount + 1⟩
  else
    ⟨st.in_position, 0, 0⟩

/-- Trigger check of `LiveMonitor._check_signals`, lines 449-476: ENTRY
fires when the entry counter has reached `min_entry_ticks` while not in
position, setting `in_position` and zeroing the entry counter; otherwise
EXIT fires when the exit counter has reached `min_exit_ticks` while in
position, clearing `in_position` and zeroing the exit counter. -/
def trigger (cfg : TradingConfig) (st1 : SignalState) :
    SignalState × Option Decision :=
  if cfg.min_entry_ticks ≤ st1.entryCount ∧ st1.in_position = false then
    (⟨true, 0, st1.exitCount⟩, some Decision.ENTRY)
  else if cfg.min_exit_ticks ≤ st1.exitCount ∧ st1.in_position = true then
    (⟨false, st1.entryCount, 0⟩, some Decision.EXIT)
  else (st1, none)

/-- `LiveMonitor._check_signals` (lines 403-476) as a pure transition on
the per-symbol signal state: counter update followed by the trigger
check. -/
def check_signals (cfg : TradingConfig) (st : SignalState)
    (z_score net_spread_pct : ℚ) : SignalState × Option Decision :=
  trigger cfg (update_counters cfg st z_score net_spread_pct)

/-- Feed a sequence of ticks (z-score, net spread pct) through
`check_signals`, collecting the emitted decisions in order. -/
def run_signals (cfg : TradingConfig) (st : SignalState) :
    List (ℚ × ℚ) → SignalState × List Decision
  | [] => (st, [])
  | t :: ts =>
    let r := check_signals cfg st t.1 t.2
    let rest := run_signals cfg r.1 ts
    (rest.1, r.2.toList ++ rest.2)

/-- A tick satisfies the tick-level entry thresholds: |z| above the
entry threshold and positive net spread percentage. -/
def entryTick (cfg : TradingConfig) (t : ℚ × ℚ) : Prop :=
  |t.1| > cfg.z_score_entry ∧ t.2 > 0

instance (cfg : TradingConfig) (t : ℚ × ℚ) : Decidable (entryTick cfg t) :=
  inferInstanceAs (Decidable (_ ∧ _))

/-- The attribute names assigned on `self` in `LiveMonitor.__init__`
(`services/live_monitor.py` lines 43-122), in source order. -/
def initAttrs : List String :=
  ["logger", "ws_manager", "event_bus", "config", "resolver",
   "supported_exchanges", "exchange_clients", "fees", "spread_history",
   "history_timeframe", "history_length", "timeframe_mins",
   "history_update_interval", "last_history_update", "active_pairs",
   "price_cache", "signal_counters", "running", "monitor_task"]

/-- The comprehensive spread update emitted on `spread_updated`
(lines 363-374). -/
structure SpreadEvent where
  gross_spread : ℚ
  gross_spread_pct : ℚ
  fee_cost : ℚ
  fee_pct : ℚ
  net_spread : ℚ
  net_spread_pct : ℚ
  z_score : ℚ
  mid_price : ℚ

/-- Monitor configuration: the two taker fees of the active pair, the
baseline window length, the baseline refresh interval (seconds) and the
trading thresholds. -/
structure MonitorConfig where
  fee_a : ℚ
  fee_b : ℚ
  history_length : ℕ
  history_update_interval : ℚ
  trading : TradingConfig

/-- The slice of `LiveMonitor` state relevant to one tracked symbol:
the cached quotes of the two pair exchanges, whether the symbol has an
active pair, the per-symbol entries of `spread_history`,
`last_history_update`, `in_position` and `signal_counters` (each `none`
when the key is absent from the dict). -/
structure SymbolState where
  pair_active : Bool
  price_a : Option Quote
  price_b : Option Quote
  spread_history : Option (List ℚ)
  last_history_update : Option ℚ
  in_position : Option Bool
  signal_counters : Option (ℕ × ℕ)

/-- `LiveMonitor._check_arbitrage_opportunity` (lines 264-401) for one
symbol.  `sqrtFn` stands for the floating-point square root
`variance ** 0.5` of line 347; the claims settled here do not depend on
its value, so it is an arbitrary oracle.  `hasInPos` records whether the
`in_position` attribute exists on the monitor: `__init__` never assigns
it, so on a fresh monitor the membership test of line 329 raises
AttributeError, modelled as an error result.  Returns the new symbol
state, the emitted spread update (if any) and the emitted decision (if
any); the control flow follows the source: return early when the symbol
has no active pair or either exchange lacks a cached quote; compute the
gross and net spread; initialize position tracking (line 329); return
early when the baseline holds fewer than 10 samples (lines 335-337);
compute the z-score, emit the spread update and run the signal check;
finally append the gross spread to the baseline once per refresh
interval (lines 386-401), evicting the oldest sample beyond the window
length. -/
def check_arbitrage_opportunity (sqrtFn : ℚ → ℚ) (hasInPos : Bool)
    (cfg : MonitorConfig) (st : SymbolState) (now : ℚ) :
    Except String (SymbolState × Option SpreadEvent × Option Decision) :=
  if st.pair_active = false then .ok (st, none, none)
  else
    match st.price_a with
    | none => .ok (st, none, none)
    | some price_a =>
      match st.price_b with
      | none => .ok (st, none, none)
      | some price_b =>
      let gross_spread := grossSpread price_a.ask price_a.bid price_b.ask price_b.bid
      let mid_price := (price_a.last + price_b.last) / 2
      let nets := Metrics.calculate_net_spread |gross_spread| mid_price cfg.fee_a cfg.fee_b
      let net_spread_val := if gross_spread < 0 then -nets.1 else nets.1
      let net_spread_pct := nets.2.1
      let fee_cost := nets.2.2
      let gross_spread_pct := if mid_price > 0 then |gross_spread| / mid_price * 100 else 0
      if hasInPos = false then .error "AttributeError: in_position"
      else
        let inPos := st.in_position.getD false
        let st2 : SymbolState := { st with in_position := some inPos }
        match st.spread_history with
        | none => .ok (st2, none, none)
        | some h =>
          if h.length < 10 then .ok (st2, none, none)
          else
            let mean := h.sum / (h.length : ℚ)
            let variance := (h.map (fun x => (x - mean) ^ 2)).sum / (h.length : ℚ)
            let std_dev := sqrtFn variance
            let z_score := if std_dev = 0 then 0 else (gross_spread - mean) / std_dev
            let ev : SpreadEvent :=
              ⟨gross_spread, gross_spread_pct, fee_cost, (cfg.fee_a + cfg.fee_b) * 100,
               net_spread_val, net_spread_pct, z_score, mid_price⟩
            let counters := st.signal_counters.getD (0, 0)
            let sig := check_signals cfg.trading ⟨inPos, counters.1, counters.2⟩
              z_score net_spread_pct
            let st3 : SymbolState :=
              { st2 with in_position := some sig.1.in_position,
                         signal_counters := some (sig.1.entryCount, sig.1.exitCount) }
            let time_since_update := now - st.last_history_update.getD 0
            if time_since_update ≥ cfg.history_update_interval then
              let appended := h ++ [gross_spread]
              let h2 := if cfg.history_length < appended.length then
                          appended.drop (appended.length - cfg.history_length)
                        else appended
              .ok ({ st3 with spread_history := some h2,
                              last_history_update := some now }, some ev, sig.2)
            else .ok (st3, some ev, sig.2)

/-- Which of the pair exchanges an incoming tick belongs to. -/
inductive TickSide
  | a
  | b
  | other
deriving DecidableEq

/-- One normalized price update drained from the quote queue, together
with the wall-clock time at which it is processed. -/
structure PriceUpdate where
  side : TickSide
  quote : Quote
  now : ℚ

/-- One iteration of `LiveMonitor._process_price_updates`
(lines 235-262): cache the incoming quote for its exchange, then run the
arbitrage check; any exception the check raises is caught and logged
(lines 260-262), in which case no spread update and no decision is
emitted and processing continues with the cached quote retained. -/
def process_price_update (sqrtFn : ℚ → ℚ) (hasInPos : Bool)
    (cfg : MonitorConfig) (st : SymbolState) (u : PriceUpdate) :
    SymbolState × Option SpreadEvent × Option Decision :=
  let st1 : SymbolState :=
    match u.side with
    | .a => { st with price_a := some u.quote }
    | .b => { st with price_b := some u.quote }
    | .other => st
  match check_arbitrage_opportunity sqrtFn hasInPos cfg st1 u.now with
  | .ok r => r
  | .error _ => (st1, none, none)

/-- Drain a sequence of price updates through the processing loop,
collecting every emitted spread update and decision. -/
def process_price_updates (sqrtFn : ℚ → ℚ) (hasInPos : Bool)
    (cfg : MonitorConfig) (st : SymbolState) :
    List PriceUpdate → SymbolState × List SpreadEvent × List Decision
  | [] => (st, [], [])
  | u :: us =>
    let r := process_price_update sqrtFn hasInPos cfg st u
    let rest := process_price_updates sqrtFn hasInPos cfg r.1 us
    (rest.1, r.2.1.toList ++ rest.2.1, r.2.2.toList ++ rest.2.2)

end LiveMonitor

namespace ExecutionEngine

/-- An exchange-capability call made by the coordinator during an
entry or exit attempt. -/
inductive ExCall
  | createOrderA
  | createOrderB
  | closePositionA
  | closePositionB
deriving DecidableEq

/-- The order response fields the coordinator reads. -/
structure Order where
  id : String
  average : ℚ
deriving DecidableEq

/-- Environment of one entry attempt: the adaptive size computed from
order-book depth, the two free USDT balances, the two tickers, and the
outcomes of the exchange calls (`none` meaning the call raised).
`rollback_ok` is the outcome of the compensating `close_position` call on
leg A: the source only logs it (lines 278-285), so nothing downstream
can depend on it. -/
structure EntryEnv where
  trade_amount_usdt : ℚ
  free_a : ℚ
  free_b : ℚ
  ticker_a : Quote
  ticker_b : Quote
  order_a : Option Order
  order_b : Option Order
  rollback_ok : Bool
deriving DecidableEq

/-- The trade metadata recorded in `active_trades` (lines 295-310). -/
structure TradeData where
  entry_z_score : ℚ
  entry_spread : ℚ
  order_a_id : String
  order_b_id : String
  side_a_buy : Bool
  amount : ℚ
deriving DecidableEq

/-- Coordinator state: the busy flag, the active-trades map, and the
running totals. -/
structure EngineState where
  is_busy : Bool
  active_trades : List (String × TradeData)
  total_trades : ℕ
  cumulative_pnl : ℚ
deriving DecidableEq

/-- `ExecutionEngine.execute_arb_entry` (`services/execution.py` lines
176-331).  Returns the new engine state, the boolean result, and the
trace of exchange calls made, in order.  Control flow follows the
source: reject when busy, when a position already exists for the symbol
or when the position ceiling is reached (lines 180-190, before the busy
flag is set); set the busy flag; abandon on non-positive adaptive size
or insufficient balance (lines 209-225); place leg A — if it raises,
the outer handler returns False; on success place leg B — if it raises,
make exactly one compensating `close_position` call on leg A (lines
278-285; its own outcome is only logged, never retried) and return
False; on full success record the trade and count it.  The `finally`
clause clears the busy flag on every path past line 192. -/
def execute_arb_entry (max_positions : ℕ) (st : EngineState) (env : EntryEnv)
    (symbol : String) (z_score : ℚ) : EngineState × Bool × List ExCall :=
  if st.is_busy = true then (st, false, [])
  else if (st.active_trades.lookup symbol).isSome then (st, false, [])
  else if max_positions ≤ st.active_trades.length then (st, false, [])
  else
    let side_a_buy := z_score < 0
    if env.trade_amount_usdt ≤ 0 then ({ st with is_busy := false }, false, [])
    else if env.free_a < env.trade_amount_usdt ∨ env.free_b < env.trade_amount_usdt then
      ({ st with is_busy := false }, false, [])
    else
      let avg_price := (env.ticker_a.last + env.ticker_b.last) / 2
      let amount := env.trade_amount_usdt / avg_price
      let entry_spread :=
        if side_a_buy then env.ticker_b.bid - env.ticker_a.ask
        else env.ticker_a.bid - env.ticker_b.ask
      match env.order_a with
      | none => ({ st with is_busy := false }, false, [ExCall.createOrderA])
      | some order_a =>
        match env.order_b with
        | none =>
          ({ st with is_busy := false }, false,
           [ExCall.createOrderA, ExCall.createOrderB, ExCall.closePositionA])
        | some order_b =>
          let trade_data : TradeData :=
            ⟨z_score, entry_spread, order_a.id, order_b.id, side_a_buy, amount⟩
          ({ is_busy := false,
             active_trades := (symbol, trade_data) :: st.active_trades,
             total_trades := st.total_trades + 1,
             cumulative_pnl := st.cumulative_pnl }, true,
           [ExCall.createOrderA, ExCall.createOrderB])

/-- `ExecutionEngine.execute_arb_exit` (lines 333-398).  `close_a` and
`close_b` are the outcomes of the two `close_position` calls (`some pnl`
on success, `none` when the call raises).  The source awaits the two
closes sequentially inside one try block (lines 358-359): if the first
close raises, the exception propagates to the handler of line 393 and
the second close is never attempted; the trade is deleted from
`active_trades` (line 389) only after both closes succeeded. -/
def execute_arb_exit (st : EngineState) (symbol : String)
    (close_a close_b : Option ℚ) : EngineState × Bool × List ExCall :=
  if (st.active_trades.lookup symbol).isSome = false then (st, false, [])
  else
    match close_a with
    | none => ({ st with is_busy := false }, false, [ExCall.closePositionA])
    | some pnl_a =>
      match close_b with
      | none =>
        ({ st with is_busy := false }, false,
         [ExCall.closePositionA, ExCall.closePositionB])
      | some pnl_b =>
        ({ is_busy := false,
           active_trades := st.active_trades.filter (fun p => p.1 ≠ symbol),
           total_trades := st.total_trades,
           cumulative_pnl := st.cumulative_pnl + (pnl_a + pnl_b) }, true,
         [ExCall.closePositionA, ExCall.closePositionB])

end ExecutionEngine

namespace PaperExchange

/-- Order side. -/
inductive Side
  | buy
  | sell
deriving DecidableEq

/-- A simulated open position (`core/exchanges/paper.py`). -/
structure Position where
  side : Side
  size : ℚ
  entry_price : ℚ
deriving DecidableEq

/-- Paper exchange state: fee rate, simulated balance, open positions,
and the contents of the persisted state file (balance and positions as
last written by `_save_state`). -/
structure PaperState where
  fee_rate : ℚ
  balance : ℚ
  positions : List (String × Position)
  saved : ℚ × List (String × Position)
deriving DecidableEq

/-- The order response fields of `create_order`. -/
structure OrderResult where
  average : ℚ
  cost : ℚ
  fee_cost : ℚ
  filled : ℚ
deriving DecidableEq

/-- The close response fields of `close_position`. -/
structure CloseResult where
  average : ℚ
  fee_cost : ℚ
  pnl : ℚ
deriving DecidableEq

/-- `PaperExchange.create_order` (`core/exchanges/paper.py` lines
159-255).  `price_data` is the cached quote `fetch_ticker` reads
(lines 147-150); `none` makes `fetch_ticker` raise before anything else
happens.  Buys execute at the ask, sells at the bid; the fee is
`cost * fee_rate`; the order is rejected when `cost + fee` exceeds the
balance (line 197), and that check precedes every state mutation, so an
error leaves balance, positions and the persisted state file untouched.
On success the balance is debited, the position created or averaged, and
the state file rewritten.  Returns the post-call state and the order
result or the raised error. -/
def create_order (ex : PaperState) (price_data : Option Quote) (symbol : String)
    (side : Side) (amount : ℚ) : PaperState × Except String OrderResult :=
  match price_data with
  | none => (ex, .error "No price data available")
  | some ticker =>
    let execution_price := match side with | .buy => ticker.ask | .sell => ticker.bid
    let cost := amount * execution_price
    let fee_cost := cost * ex.fee_rate
    let total_cost := cost + fee_cost
    if ex.balance < total_cost then (ex, .error "Insufficient balance")
    else
      let balance1 := ex.balance - total_cost
      let positions1 :=
        match ex.positions.lookup symbol with
        | some existing =>
          let total_size := existing.size + amount
          let avg_price := (existing.entry_price * existing.size +
            execution_price * amount) / total_size
          (symbol, ⟨side, total_size, avg_price⟩) ::
            ex.positions.filter (fun p => p.1 ≠ symbol)
        | none => (symbol, ⟨side, amount, execution_price⟩) :: ex.positions
      (⟨ex.fee_rate, balance1, positions1, (balance1, positions1)⟩,
       .ok ⟨execution_price, cost, fee_cost, amount⟩)

/-- `PaperExchange.close_position` (lines 298-362).  Closes by executing
the opposite side at the current quote: a long closes at the bid, a
short at the ask.  The proceeds `size * close_price` less the fee are
credited to the balance, the position is removed and the state file
rewritten. -/
def close_position (ex : PaperState) (price_data : Option Quote) (symbol : String) :
    PaperState × Except String CloseResult :=
  match ex.positions.lookup symbol with
  | none => (ex, .error "No open position")
  | some pos =>
    match price_data with
    | none => (ex, .error "No price data available")
    | some ticker =>
      let close_price := match pos.side with | .buy => ticker.bid | .sell => ticker.ask
      let pnl := match pos.side with
        | .buy => (close_price - pos.entry_price) * pos.size
        | .sell => (pos.entry_price - close_price) * pos.size
      let proceeds := pos.size * close_price
      let fee_cost := proceeds * ex.fee_rate
      let net_proceeds := proceeds - fee_cost
      let balance1 := ex.balance + net_proceeds
      let positions1 := ex.positions.filter (fun p => p.1 ≠ symbol)
      (⟨ex.fee_rate, balance1, positions1, (balance1, positions1)⟩,
       .ok ⟨close_price, fee_cost, pnl⟩)

/-- A full hedge round trip on two paper exchanges: open a buy leg on A
and a sell leg on B at the entry quotes, then close both legs at the
exit quotes.  Returns the two final states and the sum of the four leg
fees when every call succeeds, `none` otherwise. -/
def hedge_round_trip (exA exB : PaperState) (qAentry qBentry qAexit qBexit : Quote)
    (symbol : String) (amount : ℚ) : Option (PaperState × PaperState × ℚ) :=
  let openA := create_order exA (some qAentry) symbol Side.buy amount
  let openB := create_order exB (some qBentry) symbol Side.sell amount
  let closeA := close_position openA.1 (some qAexit) symbol
  let closeB := close_position openB.1 (some qBexit) symbol
  match openA.2, openB.2, closeA.2, closeB.2 with
  | .ok oA, .ok oB, .ok cA, .ok cB =>
    some (closeA.1, closeB.1,
      oA.fee_cost + oB.fee_cost + cA.fee_cost + cB.fee_cost)
  | _, _, _, _ => none

end PaperExchange

namespace WebSocketManager

/-- A subscribe control frame sent on a connection, identified by the
target exchange and an exchange-specific payload. -/
structure Frame where
  exchange : String
  payload : String
deriving DecidableEq

/-- `WebSocketManager._subscribe_symbols` (`core/ws_manager.py` lines
264-303): BingX gets one frame per symbol with the hyphenated symbol,
Bybit one batched frame with the concatenated symbols. -/
def subscribe_frames (exchange : String) (symbols : List String) : List Frame :=
  if exchange = "bingx" then
    symbols.map (fun s => ⟨"bingx", "sub " ++ s.replace "/" "-" ++ "@ticker"⟩)
  else if exchange = "bybit" then
    [⟨"bybit", "subscribe " ++
      String.intercalate " " (symbols.map (fun s => "tickers." ++ s.replace "/" ""))⟩]
  else []

/-- Manager state: the process-wide active-symbols set (a Python `set`,
modelled as a duplicate-free list) and the connections with their live
status. -/
structure WsState where
  active_symbols : List String
  connections : List (String × Bool)

/-- `WebSocketManager.subscribe` (lines 442-468): an empty request
returns immediately; otherwise the requested set minus the active set is
computed, and when nothing is new the call returns without touching the
state or sending a frame; when something is new the active set is
extended and the subscribe frames for the new symbols are sent on every
live connection. -/
def subscribe (st : WsState) (symbols : List String) : WsState × List Frame :=
  if symbols = [] then (st, [])
  else
    let new_symbols := (symbols.filter (fun s => s ∉ st.active_symbols)).dedup
    if new_symbols = [] then (st, [])
    else
      let frames := st.connections.foldr
        (fun c acc => if c.2 then subscribe_frames c.1 new_symbols ++ acc else acc)
        []
      ({ st with active_symbols := st.active_symbols ++ new_symbols }, frames)

end WebSocketManager

/-- C5: for all taker-fee fractions and every positive price and gross
spread, the modelled net-spread computation satisfies
`netSpread = g - p*(fA+fB)` with `feeCost = p*(fA+fB)`; at
`g = p*(fA+fB)` the net spread is exactly 0, and for smaller `g` it is
negative. -/
theorem C5_net_spread_breakeven (fA fB p g : ℚ) (hp : 0 < p) :
    (Metrics.calculate_net_spread g p fA fB).1 = g - p * (fA + fB) ∧
    (Metrics.calculate_net_spread g p fA fB).2.2 = p * (fA + fB) ∧
    (g = p * (fA + fB) → (Metrics.calculate_net_spread g p fA fB).1 = 0) ∧
    (g < p * (fA + fB) → (Metrics.calculate_net_spread g p fA fB).1 < 0) := by
  refine ⟨rfl, rfl, ?_, ?_⟩
  · intro h
    simp [Metrics.calculate_net_spread, h]
  · intro h
    simpa [Metrics.calculate_net_spread] using sub_neg.mpr h

/-- Witness for C5 at the spec's own example: price 50000, gross 100,
fees 0.05 percent and 0.055 percent give fee cost 52.5 and net 47.5; a
gross of 30 is below breakeven. -/
theorem C5_net_spread_breakeven_witness :
    (Metrics.calculate_net_spread 100 50000 (1/2000) (11/20000)).1 =
      100 - 50000 * (1/2000 + 11/20000) ∧
    (Metrics.calculate_net_spread 30 50000 (1/2000) (11/20000)).1 < 0 :=
  ⟨(C5_net_spread_breakeven (1/2000) (11/20000) 50000 100 (by norm_num)).1,
   (C5_net_spread_breakeven (1/2000) (11/20000) 50000 30
      (by norm_num)).2.2.2 (by norm_num)⟩

/-- C6: for every pair of cached quotes, the gross executable spread
equals `min |askA - bidB| |askB - bidA|` in magnitude; it is strictly
negative exactly when `askA - bidB` is negative (exchange A the cheaper
side) and the favorable magnitude is nonzero, and strictly positive
exactly when `askA - bidB` is nonnegative and the magnitude is nonzero,
so the sign is determined by `askA - bidB` alone even when the two raw
differences disagree in sign. -/
theorem C6_gross_spread_sign (askA bidA askB bidB : ℚ) :
    |LiveMonitor.grossSpread askA bidA askB bidB| =
      min |askA - bidB| |askB - bidA| ∧
    (LiveMonitor.grossSpread askA bidA askB bidB < 0 ↔
      (askA - bidB < 0 ∧ 0 < min |askA - bidB| |askB - bidA|)) ∧
    (0 < LiveMonitor.grossSpread askA bidA askB bidB ↔
      (0 ≤ askA - bidB ∧ 0 < min |askA - bidB| |askB - bidA|)) := by
  have hmin : 0 ≤ min |askA - bidB| |askB - bidA| :=
    le_min (abs_nonneg _) (abs_nonneg _)
  unfold LiveMonitor.grossSpread
  by_cases h : askA - bidB < 0
  · rw [if_pos h]
    refine ⟨by rw [abs_neg, abs_of_nonneg hmin], ?_, ?_⟩
    · constructor
      · intro hlt
        exact ⟨h, by linarith [neg_lt_zero.mp hlt]⟩
      · intro ⟨_, hpos⟩
        exact neg_lt_zero.mpr hpos
    · constructor
      · intro hgt
        exact absurd (neg_pos.mp hgt) (not_lt.mpr hmin)
      · intro ⟨hge, _⟩
        exact absurd h (not_lt.mpr hge)
  · rw [if_neg h]
    refine ⟨abs_of_nonneg hmin, ?_, ?_⟩
    · constructor
      · intro hlt
        exact absurd hlt (not_lt.mpr hmin)
      · intro ⟨hneg, _⟩
        exact absurd hneg h
    · constructor
      · intro hgt
        exact ⟨not_lt.mp h, hgt⟩
      · intro ⟨_, hpos⟩
        exact hpos

namespace WebSocketManager

theorem subscribe_mem_active (st : WsState) (symbols : List String) :
    ∀ s ∈ symbols, s ∈ (subscribe st symbols).1.active_symbols := by
  intro s hs
  simp only [subscribe]
  split_ifs with h0 hn
  · subst h0
    simp at hs
  · rw [List.dedup_eq_nil] at hn
    have h2 := List.filter_eq_nil_iff.mp hn s hs
    simpa using h2
  · by_cases hmem : s ∈ st.active_symbols
    · exact List.mem_append.mpr (Or.inl hmem)
    · exact List.mem_append.mpr (Or.inr (List.mem_dedup.mpr
        (List.mem_filter.mpr ⟨hs, by simpa using hmem⟩)))

theorem subscribe_no_new (st : WsState) (symbols : List String)
    (h : ∀ s ∈ symbols, s ∈ st.active_symbols) :
    subscribe st symbols = (st, []) := by
  simp only [subscribe]
  split_ifs with h0 hn
  · rfl
  · rfl
  · exfalso
    apply hn
    rw [List.dedup_eq_nil, List.filter_eq_nil_iff]
    intro a ha
    simp
    exact h a ha

end WebSocketManager

/-- C9: `subscribe` is idempotent on the active-symbol set: a second
immediate `subscribe` with the same symbol list leaves the active-symbols
set exactly as after the first call and sends no subscribe control frame
on any connection. -/
theorem C9_subscribe_idempotent (st : WebSocketManager.WsState)
    (symbols : List String) :
    WebSocketManager.subscribe (WebSocketManager.subscribe st symbols).1 symbols =
      ((WebSocketManager.subscribe st symbols).1, []) :=
  WebSocketManager.subscribe_no_new _ _ (WebSocketManager.subscribe_mem_active st symbols)

/-- C1: whenever an entry attempt gets past the pre-checks, leg A's
`create_order` succeeds and leg B's `create_order` raises, the
coordinator makes exactly one compensating `close_position` call on leg
A's exchange — independent of whether that rollback call itself succeeds
(`env.rollback_ok` is universally quantified and the trace does not
depend on it) — and `execute_arb_entry` returns failure with the
active-trades map unchanged. -/
theorem C1_entry_rollback_once (maxp : ℕ) (st : ExecutionEngine.EngineState)
    (env : ExecutionEngine.EntryEnv) (symbol : String) (z : ℚ)
    (oa : ExecutionEngine.Order)
    (hbusy : st.is_busy = false)
    (hsym : st.active_trades.lookup symbol = none)
    (hcap : st.active_trades.length < maxp)
    (hamt : 0 < env.trade_amount_usdt)
    (hfa : env.trade_amount_usdt ≤ env.free_a)
    (hfb : env.trade_amount_usdt ≤ env.free_b)
    (ha : env.order_a = some oa)
    (hb : env.order_b = none) :
    ((ExecutionEngine.execute_arb_entry maxp st env symbol z).2.2).count
        ExecutionEngine.ExCall.closePositionA = 1 ∧
    (ExecutionEngine.execute_arb_entry maxp st env symbol z).2.1 = false ∧
    (ExecutionEngine.execute_arb_entry maxp st env symbol z).1.active_trades =
      st.active_trades := by
  unfold ExecutionEngine.execute_arb_entry
  rw [if_neg (by simp [hbusy]), if_neg (by simp [hsym]),
      if_neg (by omega), if_neg (by exact not_le.mpr hamt),
      if_neg (by push_neg; exact ⟨hfa, hfb⟩), ha, hb]
  exact ⟨rfl, rfl, rfl⟩

/-- Witness for C1 at a concrete entry attempt: an idle engine with no
open trades, sufficient size and balances, a successful leg A and a
failed leg B. -/
theorem C1_entry_rollback_once_witness :
    ((ExecutionEngine.execute_arb_entry 5 ⟨false, [], 0, 0⟩
        ⟨50, 100, 100, ⟨99, 100, 100⟩, ⟨100, 101, 100⟩, some ⟨"a1", 100⟩, none, false⟩
        "BTC/USDT" (-2)).2.2).count ExecutionEngine.ExCall.closePositionA = 1 ∧
    (ExecutionEngine.execute_arb_entry 5 ⟨false, [], 0, 0⟩
        ⟨50, 100, 100, ⟨99, 100, 100⟩, ⟨100, 101, 100⟩, some ⟨"a1", 100⟩, none, false⟩
        "BTC/USDT" (-2)).2.1 = false ∧
    (ExecutionEngine.execute_arb_entry 5 ⟨false, [], 0, 0⟩
        ⟨50, 100, 100, ⟨99, 100, 100⟩, ⟨100, 101, 100⟩, some ⟨"a1", 100⟩, none, false⟩
        "BTC/USDT" (-2)).1.active_trades = [] :=
  C1_entry_rollback_once 5 ⟨false, [], 0, 0⟩
    ⟨50, 100, 100, ⟨99, 100, 100⟩, ⟨100, 101, 100⟩, some ⟨"a1", 100⟩, none, false⟩
    "BTC/USDT" (-2) ⟨"a1", 100⟩ rfl rfl (by norm_num) (by norm_num)
    (by norm_num) (by norm_num) rfl rfl

/-- Counterexample to C2 as stated: at a concrete engine state holding
an active trade for BTC/USDT, when the first leg's `close_position`
raises, the second leg's `close_position` is never called (the trace
contains no such call), contradicting the claim that the other leg's
close is still attempted. -/
theorem C2_exit_counterexample :
    ExecutionEngine.ExCall.closePositionB ∉
      (ExecutionEngine.execute_arb_exit
        ⟨false, [("BTC/USDT", ⟨-2, 1, "a", "b", true, 1⟩)], 1, 0⟩
        "BTC/USDT" none none).2.2 ∧
    (ExecutionEngine.execute_arb_exit
        ⟨false, [("BTC/USDT", ⟨-2, 1, "a", "b", true, 1⟩)], 1, 0⟩
        "BTC/USDT" none none).2.2 = [ExecutionEngine.ExCall.closePositionA] := by
  constructor
  · decide
  · decide

/-- C2 (amended): the two closes are sequential — when the first leg's
close raises, the exit aborts: the second leg's close is not attempted
and the trade remains in the active-trades map; when the first close
succeeds and the second raises, both calls were attempted and the trade
also remains tracked; the trade is removed from the active-trades map
only when both closes succeed (in particular only after both were
attempted). -/
theorem C2_exit_close_both (st : ExecutionEngine.EngineState) (symbol : String)
    (td : ExecutionEngine.TradeData) (close_a close_b : Option ℚ)
    (h : st.active_trades.lookup symbol = some td) :
    (close_a = none →
      (ExecutionEngine.execute_arb_exit st symbol close_a close_b).2.2 =
        [ExecutionEngine.ExCall.closePositionA] ∧
      (ExecutionEngine.execute_arb_exit st symbol close_a close_b).2.1 = false ∧
      (ExecutionEngine.execute_arb_exit st symbol close_a close_b).1.active_trades =
        st.active_trades) ∧
    (∀ pa, close_a = some pa → close_b = none →
      (ExecutionEngine.execute_arb_exit st symbol close_a close_b).2.2 =
        [ExecutionEngine.ExCall.closePositionA, ExecutionEngine.ExCall.closePositionB] ∧
      (ExecutionEngine.execute_arb_exit st symbol close_a close_b).2.1 = false ∧
      (ExecutionEngine.execute_arb_exit st symbol close_a close_b).1.active_trades =
        st.active_trades) ∧
    (∀ pa pb, close_a = some pa → close_b = some pb →
      (ExecutionEngine.execute_arb_exit st symbol close_a close_b).2.2 =
        [ExecutionEngine.ExCall.closePositionA, ExecutionEngine.ExCall.closePositionB] ∧
      (ExecutionEngine.execute_arb_exit st symbol close_a close_b).2.1 = true ∧
      (ExecutionEngine.execute_arb_exit st symbol close_a close_b).1.active_trades =
        st.active_trades.filter (fun p => p.1 ≠ symbol)) := by
  unfold ExecutionEngine.execute_arb_exit
  rw [if_neg (by simp [h])]
  refine ⟨?_, ?_, ?_⟩
  · intro hca
    rw [hca]
    exact ⟨rfl, rfl, rfl⟩
  · intro pa hca hcb
    rw [hca, hcb]
    exact ⟨rfl, rfl, rfl⟩
  · intro pa pb hca hcb
    rw [hca, hcb]
    exact ⟨rfl, rfl, rfl⟩

/-- Witness for the amended C2 at a concrete state: with both closes
succeeding, the trade is removed after both calls were made. -/
theorem C2_exit_close_both_witness :
    (ExecutionEngine.execute_arb_exit
        ⟨false, [("BTC/USDT", ⟨-2, 1, "a", "b", true, 1⟩)], 1, 0⟩
        "BTC/USDT" (some 1) (some 2)).2.2 =
      [ExecutionEngine.ExCall.closePositionA, ExecutionEngine.ExCall.closePositionB] ∧
    (ExecutionEngine.execute_arb_exit
        ⟨false, [("BTC/USDT", ⟨-2, 1, "a", "b", true, 1⟩)], 1, 0⟩
        "BTC/USDT" (some 1) (some 2)).2.1 = true ∧
    (ExecutionEngine.execute_arb_exit
        ⟨false, [("BTC/USDT", ⟨-2, 1, "a", "b", true, 1⟩)], 1, 0⟩
        "BTC/USDT" (some 1) (some 2)).1.active_trades =
      ([("BTC/USDT", (⟨-2, 1, "a", "b", true, 1⟩ : ExecutionEngine.TradeData))].filter
        (fun p => p.1 ≠ "BTC/USDT")) :=
  (C2_exit_close_both ⟨false, [("BTC/USDT", ⟨-2, 1, "a", "b", true, 1⟩)], 1, 0⟩
      "BTC/USDT" ⟨-2, 1, "a", "b", true, 1⟩ (some 1) (some 2)
      (by decide)).2.2 1 2 rfl rfl

/-- C10: `PaperExchange.create_order` is atomic on error — whenever it
raises (no cached price, or cost plus fee exceeding the free balance)
the whole exchange state, including balance, positions and the persisted
state file, is exactly the pre-call state; a missing price always
raises; an insufficient balance always raises; and on success the
balance check that precedes every mutation guarantees the new balance is
nonnegative. -/
theorem C10_create_order_atomic (ex : PaperExchange.PaperState)
    (price_data : Option Quote) (symbol : String) (side : PaperExchange.Side)
    (amount : ℚ) :
    (∀ e, (PaperExchange.create_order ex price_data symbol side amount).2 = .error e →
      (PaperExchange.create_order ex price_data symbol side amount).1 = ex) ∧
    (price_data = none →
      (PaperExchange.create_order ex price_data symbol side amount).2 =
        .error "No price data available") ∧
    (∀ q, price_data = some q →
      ex.balance < amount * (match side with
          | PaperExchange.Side.buy => q.ask
          | PaperExchange.Side.sell => q.bid) +
        amount * (match side with
          | PaperExchange.Side.buy => q.ask
          | PaperExchange.Side.sell => q.bid) * ex.fee_rate →
      (PaperExchange.create_order ex price_data symbol side amount).2 =
        .error "Insufficient balance") ∧
    (∀ o, (PaperExchange.create_order ex price_data symbol side amount).2 = .ok o →
      0 ≤ (PaperExchange.create_order ex price_data symbol side amount).1.balance) := by
  cases price_data with
  | none =>
    refine ⟨fun e _ => rfl, fun _ => rfl, ?_, ?_⟩
    · intro q hq
      exact absurd hq (by simp)
    · intro o ho
      simp [PaperExchange.create_order] at ho
  | some q =>
    cases side with
    | buy =>
      refine ⟨?_, ?_, ?_, ?_⟩
      · intro e he
        by_cases hb : ex.balance < amount * q.ask + amount * q.ask * ex.fee_rate
        · simp [PaperExchange.create_order, if_pos hb]
        · simp [PaperExchange.create_order, if_neg hb] at he
      · intro h
        exact absurd h (by simp)
      · intro q2 hq2 hb
        rw [Option.some_inj] at hq2
        subst hq2
        simp only [PaperExchange.create_order]
        rw [if_pos hb]
      · intro o ho
        by_cases hb : ex.balance < amount * q.ask + amount * q.ask * ex.fee_rate
        · simp [PaperExchange.create_order, if_pos hb] at ho
        · simp only [PaperExchange.create_order]
          rw [if_neg hb]
          simp only [not_lt] at hb
          simp only []
          linarith
    | sell =>
      refine ⟨?_, ?_, ?_, ?_⟩
      · intro e he
        by_cases hb : ex.balance < amount * q.bid + amount * q.bid * ex.fee_rate
        · simp [PaperExchange.create_order, if_pos hb]
        · simp [PaperExchange.create_order, if_neg hb] at he
      · intro h
        exact absurd h (by simp)
      · intro q2 hq2 hb
        rw [Option.some_inj] at hq2
        subst hq2
        simp only [PaperExchange.create_order]
        rw [if_pos hb]
      · intro o ho
        by_cases hb : ex.balance < amount * q.bid + amount * q.bid * ex.fee_rate
        · simp [PaperExchange.create_order, if_pos hb] at ho
        · simp only [PaperExchange.create_order]
          rw [if_neg hb]
          simp only [not_lt] at hb
          simp only []
          linarith

/-- Witness for C10 at a concrete rejected order: balance 10, buy 1 at
ask 101 with 0.1 percent fee — the call raises and the state, including
the persisted file, is exactly the pre-call state. -/
theorem C10_create_order_atomic_witness :
    (PaperExchange.create_order ⟨1/1000, 10, [], (10, [])⟩ (some ⟨100, 101, 100⟩)
        "BTC/USDT" PaperExchange.Side.buy 1).2 = .error "Insufficient balance" ∧
    (PaperExchange.create_order ⟨1/1000, 10, [], (10, [])⟩ (some ⟨100, 101, 100⟩)
        "BTC/USDT" PaperExchange.Side.buy 1).1 = ⟨1/1000, 10, [], (10, [])⟩ := by
  have h := C10_create_order_atomic ⟨1/1000, 10, [], (10, [])⟩ (some ⟨100, 101, 100⟩)
    "BTC/USDT" PaperExchange.Side.buy 1
  have herr := h.2.2.1 ⟨100, 101, 100⟩ rfl
    (by show (10 : ℚ) < 1 * 101 + 1 * 101 * (1/1000); norm_num)
  exact ⟨herr, h.1 "Insufficient balance" herr⟩

namespace PaperExchange

theorem create_order_buy_fresh (r b amount : ℚ) (q : Quote) (symbol : String)
    (sav : ℚ × List (String × Position))
    (hbal : amount * q.ask + amount * q.ask * r ≤ b) :
    create_order ⟨r, b, [], sav⟩ (some q) symbol Side.buy amount =
      (⟨r, b - (amount * q.ask + amount * q.ask * r),
        [(symbol, ⟨Side.buy, amount, q.ask⟩)],
        (b - (amount * q.ask + amount * q.ask * r),
         [(symbol, ⟨Side.buy, amount, q.ask⟩)])⟩,
       .ok ⟨q.ask, amount * q.ask, amount * q.ask * r, amount⟩) := by
  simp [create_order, not_lt.mpr hbal]

theorem create_order_sell_fresh (r b amount : ℚ) (q : Quote) (symbol : String)
    (sav : ℚ × List (String × Position))
    (hbal : amount * q.bid + amount * q.bid * r ≤ b) :
    create_order ⟨r, b, [], sav⟩ (some q) symbol Side.sell amount =
      (⟨r, b - (amount * q.bid + amount * q.bid * r),
        [(symbol, ⟨Side.sell, amount, q.bid⟩)],
        (b - (amount * q.bid + amount * q.bid * r),
         [(symbol, ⟨Side.sell, amount, q.bid⟩)])⟩,
       .ok ⟨q.bid, amount * q.bid, amount * q.bid * r, amount⟩) := by
  simp [create_order, not_lt.mpr hbal]

theorem close_position_long (r b amount entry : ℚ) (q : Quote) (symbol : String)
    (sav : ℚ × List (String × Position)) :
    close_position ⟨r, b, [(symbol, ⟨Side.buy, amount, entry⟩)], sav⟩ (some q) symbol =
      (⟨r, b + (amount * q.bid - amount * q.bid * r), [],
        (b + (amount * q.bid - amount * q.bid * r), [])⟩,
       .ok ⟨q.bid, amount * q.bid * r, (q.bid - entry) * amount⟩) := by
  simp [close_position, List.lookup]

theorem close_position_short (r b amount entry : ℚ) (q : Quote) (symbol : String)
    (sav : ℚ × List (String × Position)) :
    close_position ⟨r, b, [(symbol, ⟨Side.sell, amount, entry⟩)], sav⟩ (some q) symbol =
      (⟨r, b + (amount * q.ask - amount * q.ask * r), [],
        (b + (amount * q.ask - amount * q.ask * r), [])⟩,
       .ok ⟨q.ask, amount * q.ask * r, (entry - q.ask) * amount⟩) := by
  simp [close_position, List.lookup]

end PaperExchange

/-- Counterexample to C8 as stated: two fee-free paper exchanges with
1000 each; exchange A quotes bid 99 / ask 101 (mid 100), exchange B
quotes bid 100 / ask 100 (mid 100), and the quotes — hence both
mid-prices — are identical at entry and exit.  The hedge round trip
succeeds, the four leg fees total 0, yet the final balances are 998 and
1000: the sum 1998 differs from initial total minus fees (2000), because
each leg also pays or earns its exchange's bid-ask width. -/
theorem C8_round_trip_counterexample :
    PaperExchange.hedge_round_trip
        ⟨0, 1000, [], (1000, [])⟩ ⟨0, 1000, [], (1000, [])⟩
        ⟨99, 101, 100⟩ ⟨100, 100, 100⟩ ⟨99, 101, 100⟩ ⟨100, 100, 100⟩
        "BTC/USDT" 1 =
      some (⟨0, 998, [], (998, [])⟩, ⟨0, 1000, [], (1000, [])⟩, 0) ∧
    (998 : ℚ) + 1000 ≠ 1000 + 1000 - 0 := by
  constructor
  · simp only [PaperExchange.hedge_round_trip]
    rw [PaperExchange.create_order_buy_fresh 0 1000 1 ⟨99, 101, 100⟩ "BTC/USDT" _
          (by norm_num),
        PaperExchange.create_order_sell_fresh 0 1000 1 ⟨100, 100, 100⟩ "BTC/USDT" _
          (by norm_num)]
    dsimp only
    rw [PaperExchange.close_position_long, PaperExchange.close_position_short]
    dsimp only
    norm_num
  · norm_num

/-- C8 (amended): opening then closing a hedge trade on two fresh paper
adapters returns the sum of the two balances to exactly the initial
total minus the four leg fees when each exchange's quotes are unchanged
between entry and exit AND the two exchanges' bid-ask widths are equal
(in particular when both quote bid = ask = mid); with unequal widths the
sum additionally shifts by amount times the width difference, so
mid-price invariance alone is not sufficient. -/
theorem C8_round_trip_fees_only (rA rB bA bB amount : ℚ) (qA qB : Quote)
    (symbol : String)
    (hbalA : amount * qA.ask + amount * qA.ask * rA ≤ bA)
    (hbalB : amount * qB.bid + amount * qB.bid * rB ≤ bB)
    (hwidth : qA.ask - qA.bid = qB.ask - qB.bid) :
    ∃ sA sB fees,
      PaperExchange.hedge_round_trip ⟨rA, bA, [], (bA, [])⟩ ⟨rB, bB, [], (bB, [])⟩
        qA qB qA qB symbol amount = some (sA, sB, fees) ∧
      sA.balance + sB.balance = bA + bB - fees := by
  simp only [PaperExchange.hedge_round_trip]
  rw [PaperExchange.create_order_buy_fresh rA bA amount qA symbol _ hbalA,
      PaperExchange.create_order_sell_fresh rB bB amount qB symbol _ hbalB]
  dsimp only
  rw [PaperExchange.close_position_long, PaperExchange.close_position_short]
  dsimp only
  refine ⟨_, _, _, rfl, ?_⟩
  dsimp only
  linear_combination (-amount) * hwidth

/-- Witness for the amended C8 at concrete values: fee rate 0.1 percent
on both sides, balances 1000, both exchanges quoting bid 99 / ask 101. -/
theorem C8_round_trip_fees_only_witness :
    ∃ sA sB fees,
      PaperExchange.hedge_round_trip ⟨1/1000, 1000, [], (1000, [])⟩
        ⟨1/1000, 1000, [], (1000, [])⟩
        ⟨99, 101, 100⟩ ⟨99, 101, 100⟩ ⟨99, 101, 100⟩ ⟨99, 101, 100⟩
        "BTC/USDT" 1 = some (sA, sB, fees) ∧
      sA.balance + sB.balance = 1000 + 1000 - fees :=
  C8_round_trip_fees_only (1/1000) (1/1000) 1000 1000 1 ⟨99, 101, 100⟩
    ⟨99, 101, 100⟩ "BTC/USDT" (by norm_num) (by norm_num) (by norm_num)

namespace LiveMonitor

theorem update_counters_in_position (cfg : TradingConfig) (st : SignalState)
    (z n : ℚ) : (update_counters cfg st z n).in_position = st.in_position := by
  unfold update_counters
  split_ifs <;> rfl

theorem check_signals_no_entry_of_in_position (cfg : TradingConfig)
    (st : SignalState) (z n : ℚ) (h : st.in_position = true) :
    (check_signals cfg st z n).2 ≠ some Decision.ENTRY := by
  unfold check_signals trigger
  have h1 : (update_counters cfg st z n).in_position = true := by
    rw [update_counters_in_position, h]
  rw [if_neg (by simp [h1])]
  split_ifs <;> simp

theorem check_signals_entry_reset (cfg : TradingConfig) (st : SignalState)
    (z n : ℚ)
    (h : ¬(st.in_position = false ∧ |z| > cfg.z_score_entry ∧ n > 0)) :
    ((check_signals cfg st z n).1).entryCount = 0 := by
  unfold check_signals update_counters trigger
  rw [if_neg h]
  split_ifs <;> rfl

theorem run_signals_cons (cfg : TradingConfig) (st : SignalState)
    (t : ℚ × ℚ) (ts : List (ℚ × ℚ)) :
    run_signals cfg st (t :: ts) =
      ((run_signals cfg (check_signals cfg st t.1 t.2).1 ts).1,
       (check_signals cfg st t.1 t.2).2.toList ++
         (run_signals cfg (check_signals cfg st t.1 t.2).1 ts).2) := rfl

theorem check_signals_nonqual (cfg : TradingConfig) (st : SignalState) (z n : ℚ)
    (hpos : st.in_position = false)
    (hq : ¬(|z| > cfg.z_score_entry ∧ n > 0))
    (hm : 1 ≤ cfg.min_entry_ticks) :
    check_signals cfg st z n = (⟨false, 0, 0⟩, none) := by
  have hu : update_counters cfg st z n = ⟨false, 0, 0⟩ := by
    unfold update_counters
    rw [if_neg (by rintro ⟨_, h1, h2⟩; exact hq ⟨h1, h2⟩),
        if_neg (by rintro ⟨h1, _⟩; rw [hpos] at h1; cases h1), hpos]
  unfold check_signals
  rw [hu]
  unfold trigger
  rw [if_neg (by rintro ⟨h1, _⟩; simp at h1; omega),
      if_neg (by rintro ⟨_, h2⟩; simp at h2)]

theorem check_signals_qual_low (cfg : TradingConfig) (st : SignalState) (z n : ℚ)
    (hpos : st.in_position = false)
    (hq : |z| > cfg.z_score_entry ∧ n > 0)
    (hlow : st.entryCount + 1 < cfg.min_entry_ticks) :
    check_signals cfg st z n = (⟨false, st.entryCount + 1, 0⟩, none) := by
  have hu : update_counters cfg st z n = ⟨false, st.entryCount + 1, 0⟩ := by
    unfold update_counters
    rw [if_pos ⟨hpos, hq.1, hq.2⟩, hpos]
  unfold check_signals
  rw [hu]
  unfold trigger
  rw [if_neg (by rintro ⟨h1, _⟩; simp at h1; omega),
      if_neg (by rintro ⟨_, h2⟩; simp at h2)]

theorem check_signals_qual_fire (cfg : TradingConfig) (st : SignalState) (z n : ℚ)
    (hpos : st.in_position = false)
    (hq : |z| > cfg.z_score_entry ∧ n > 0)
    (hfire : cfg.min_entry_ticks ≤ st.entryCount + 1) :
    check_signals cfg st z n = (⟨true, 0, 0⟩, some Decision.ENTRY) := by
  have hu : update_counters cfg st z n = ⟨false, st.entryCount + 1, 0⟩ := by
    unfold update_counters
    rw [if_pos ⟨hpos, hq.1, hq.2⟩, hpos]
  unfold check_signals
  rw [hu]
  unfold trigger
  rw [if_pos ⟨by simpa using hfire, rfl⟩]

theorem run_signals_fire (cfg : TradingConfig) :
    ∀ (ts : List (ℚ × ℚ)) (c e : ℕ), (∀ t ∈ ts, entryTick cfg t) →
      c + ts.length = cfg.min_entry_ticks → ts ≠ [] →
      run_signals cfg ⟨false, c, e⟩ ts = (⟨true, 0, 0⟩, [Decision.ENTRY])
  | [], _, _, _, _, hne => absurd rfl hne
  | [t], c, e, hq, hlen, _ => by
    have hqt : |t.1| > cfg.z_score_entry ∧ t.2 > 0 := hq t (by simp)
    have hfire : cfg.min_entry_ticks ≤ c + 1 := by
      simp at hlen
      omega
    rw [run_signals_cons, check_signals_qual_fire cfg ⟨false, c, e⟩ t.1 t.2 rfl hqt hfire]
    dsimp only
    simp [run_signals]
  | t :: t' :: ts, c, e, hq, hlen, _ => by
    have hqt : |t.1| > cfg.z_score_entry ∧ t.2 > 0 := hq t (by simp)
    have hlow : c + 1 < cfg.min_entry_ticks := by
      simp [List.length_cons] at hlen
      omega
    have ih := run_signals_fire cfg (t' :: ts) (c + 1) 0
      (fun x hx => hq x (List.mem_cons_of_mem t hx))
      (by simp [List.length_cons] at hlen ⊢; omega)
      (by simp)
    rw [run_signals_cons, check_signals_qual_low cfg ⟨false, c, e⟩ t.1 t.2 rfl hqt hlow]
    dsimp only
    rw [ih]
    simp

end LiveMonitor

/-- C3: with a minimum entry debounce count m above 1: (1) a single
tick passing the entry thresholds surrounded by non-qualifying ticks
never emits an ENTRY; (2) any tick on which the entry condition does not
hold resets the entry counter to zero immediately; (3) m consecutive
qualifying ticks starting from a fresh counter out of position emit
exactly one ENTRY, with the entry counter reset to zero on firing; and
(4) once in position (in particular on the qualifying tick right after
firing) no further ENTRY can be emitted — a fresh run of m out of
position is required. -/
theorem C3_entry_debounce (cfg : LiveMonitor.TradingConfig)
    (hm : 1 < cfg.min_entry_ticks) :
    (∀ (st : LiveMonitor.SignalState) (t0 t1 t2 : ℚ × ℚ),
      st.in_position = false →
      ¬LiveMonitor.entryTick cfg t0 → ¬LiveMonitor.entryTick cfg t2 →
      LiveMonitor.Decision.ENTRY ∉ (LiveMonitor.run_signals cfg st [t0, t1, t2]).2) ∧
    (∀ (st : LiveMonitor.SignalState) (z n : ℚ),
      ¬(st.in_position = false ∧ |z| > cfg.z_score_entry ∧ n > 0) →
      ((LiveMonitor.check_signals cfg st z n).1).entryCount = 0) ∧
    (∀ (ts : List (ℚ × ℚ)) (e : ℕ),
      (∀ t ∈ ts, LiveMonitor.entryTick cfg t) →
      ts.length = cfg.min_entry_ticks →
      LiveMonitor.run_signals cfg ⟨false, 0, e⟩ ts =
        (⟨true, 0, 0⟩, [LiveMonitor.Decision.ENTRY])) ∧
    (∀ (st : LiveMonitor.SignalState) (z n : ℚ), st.in_position = true →
      (LiveMonitor.check_signals cfg st z n).2 ≠ some LiveMonitor.Decision.ENTRY) := by
  refine ⟨?_, ?_, ?_, ?_⟩
  · intro st t0 t1 t2 hpos h0 h2
    have hm1 : 1 ≤ cfg.min_entry_ticks := le_of_lt hm
    have s0 := LiveMonitor.check_signals_nonqual cfg st t0.1 t0.2 hpos h0 hm1
    by_cases hq1 : LiveMonitor.entryTick cfg t1
    · have s1 := LiveMonitor.check_signals_qual_low cfg ⟨false, 0, 0⟩ t1.1 t1.2
        rfl hq1 (by simpa using hm)
      have s2 := LiveMonitor.check_signals_nonqual cfg ⟨false, 1, 0⟩ t2.1 t2.2
        rfl h2 hm1
      rw [LiveMonitor.run_signals_cons, s0]
      dsimp only
      rw [LiveMonitor.run_signals_cons, s1]
      dsimp only
      rw [LiveMonitor.run_signals_cons, s2]
      simp [LiveMonitor.run_signals]
    · have s1 := LiveMonitor.check_signals_nonqual cfg ⟨false, 0, 0⟩ t1.1 t1.2
        rfl hq1 hm1
      have s2 := LiveMonitor.check_signals_nonqual cfg ⟨false, 0, 0⟩ t2.1 t2.2
        rfl h2 hm1
      rw [LiveMonitor.run_signals_cons, s0]
      dsimp only
      rw [LiveMonitor.run_signals_cons, s1]
      dsimp only
      rw [LiveMonitor.run_signals_cons, s2]
      simp [LiveMonitor.run_signals]
  · intro st z n h
    exact LiveMonitor.check_signals_entry_reset cfg st z n h
  · intro ts e hq hlen
    refine LiveMonitor.run_signals_fire cfg ts 0 e hq (by omega) ?_
    intro hnil
    subst hnil
    simp at hlen
    omega
  · intro st z n h
    exact LiveMonitor.check_signals_no_entry_of_in_position cfg st z n h

/-- Witness for C3 with entry threshold 2, exit threshold 1/2, minimum
entry ticks 3: three consecutive qualifying ticks fire exactly one
ENTRY with the counter reset, while an isolated qualifying tick
surrounded by noise fires nothing. -/
theorem C3_entry_debounce_witness :
    LiveMonitor.run_signals ⟨2, 1/2, 3, 5⟩ ⟨false, 0, 0⟩ [(3, 1), (3, 1), (3, 1)] =
      (⟨true, 0, 0⟩, [LiveMonitor.Decision.ENTRY]) ∧
    LiveMonitor.Decision.ENTRY ∉
      (LiveMonitor.run_signals ⟨2, 1/2, 3, 5⟩ ⟨false, 0, 0⟩
        [(0, 0), (3, 1), (0, 0)]).2 := by
  have h := C3_entry_debounce ⟨2, 1/2, 3, 5⟩ (by norm_num)
  have habs : |(3 : ℚ)| = 3 := abs_of_nonneg (by norm_num)
  refine ⟨h.2.2.1 [(3, 1), (3, 1), (3, 1)] 0 ?_ rfl,
    h.1 ⟨false, 0, 0⟩ (0, 0) (3, 1) (0, 0) rfl ?_ ?_⟩
  · intro t ht
    simp only [List.mem_cons, List.not_mem_nil, or_false] at ht
    rcases ht with h1 | h1 | h1 <;> subst h1 <;>
      exact ⟨by rw [habs]; norm_num, by norm_num⟩
  · rintro ⟨_, h2⟩
    norm_num at h2
  · rintro ⟨_, h2⟩
    norm_num at h2

namespace LiveMonitor

theorem process_price_updates_cons (sqrtFn : ℚ → ℚ) (hasInPos : Bool)
    (cfg : MonitorConfig) (st : SymbolState) (u : PriceUpdate)
    (us : List PriceUpdate) :
    process_price_updates sqrtFn hasInPos cfg st (u :: us) =
      ((process_price_updates sqrtFn hasInPos cfg
          (process_price_update sqrtFn hasInPos cfg st u).1 us).1,
       (process_price_update sqrtFn hasInPos cfg st u).2.1.toList ++
         (process_price_updates sqrtFn hasInPos cfg
           (process_price_update sqrtFn hasInPos cfg st u).1 us).2.1,
       (process_price_update sqrtFn hasInPos cfg st u).2.2.toList ++
         (process_price_updates sqrtFn hasInPos cfg
           (process_price_update sqrtFn hasInPos cfg st u).1 us).2.2) := rfl

theorem check_arb_no_attr (sqrtFn : ℚ → ℚ) (cfg : MonitorConfig)
    (st : SymbolState) (now : ℚ) (qa qb : Quote)
    (hpair : st.pair_active = true)
    (hpa : st.price_a = some qa) (hpb : st.price_b = some qb) :
    check_arbitrage_opportunity sqrtFn false cfg st now =
      .error "AttributeError: in_position" := by
  simp [check_arbitrage_opportunity, hpair, hpa, hpb]

theorem check_arb_no_attr_cases (sqrtFn : ℚ → ℚ) (cfg : MonitorConfig)
    (st : SymbolState) (now : ℚ) :
    check_arbitrage_opportunity sqrtFn false cfg st now = .ok (st, none, none) ∨
    check_arbitrage_opportunity sqrtFn false cfg st now =
      .error "AttributeError: in_position" := by
  by_cases hp : st.pair_active = false
  · left
    unfold check_arbitrage_opportunity
    rw [if_pos hp]
  · cases hpa : st.price_a with
    | none =>
      left
      unfold check_arbitrage_opportunity
      rw [if_neg hp, hpa]
    | some qa =>
      cases hpb : st.price_b with
      | none =>
        left
        unfold check_arbitrage_opportunity
        rw [if_neg hp, hpa, hpb]
      | some qb =>
        right
        exact check_arb_no_attr sqrtFn cfg st now qa qb
          (by simpa using hp) hpa hpb

theorem process_price_update_no_attr (sqrtFn : ℚ → ℚ) (cfg : MonitorConfig)
    (st : SymbolState) (u : PriceUpdate) :
    (process_price_update sqrtFn false cfg st u).2.1 = none ∧
    (process_price_update sqrtFn false cfg st u).2.2 = none := by
  obtain ⟨side, quote, now⟩ := u
  cases side with
  | a =>
    unfold process_price_update
    dsimp only
    rcases check_arb_no_attr_cases sqrtFn cfg { st with price_a := some quote }
        now with hcase | hcase <;> rw [hcase] <;> exact ⟨rfl, rfl⟩
  | b =>
    unfold process_price_update
    dsimp only
    rcases check_arb_no_attr_cases sqrtFn cfg { st with price_b := some quote }
        now with hcase | hcase <;> rw [hcase] <;> exact ⟨rfl, rfl⟩
  | other =>
    unfold process_price_update
    dsimp only
    rcases check_arb_no_attr_cases sqrtFn cfg st now with hcase | hcase <;>
      rw [hcase] <;> exact ⟨rfl, rfl⟩

theorem check_arb_short_history (sqrtFn : ℚ → ℚ) (cfg : MonitorConfig)
    (st : SymbolState) (now : ℚ) (h : List ℚ)
    (hh : st.spread_history = some h) (hlen : h.length < 10) :
    check_arbitrage_opportunity sqrtFn true cfg st now = .ok (st, none, none) ∨
    check_arbitrage_opportunity sqrtFn true cfg st now =
      .ok ({ st with in_position := some (st.in_position.getD false) }, none, none) := by
  by_cases hp : st.pair_active = false
  · left
    unfold check_arbitrage_opportunity
    rw [if_pos hp]
  · cases hpa : st.price_a with
    | none =>
      left
      unfold check_arbitrage_opportunity
      rw [if_neg hp, hpa]
    | some qa =>
      cases hpb : st.price_b with
      | none =>
        left
        unfold check_arbitrage_opportunity
        rw [if_neg hp, hpa, hpb]
      | some qb =>
        right
        simp [check_arbitrage_opportunity, hp, hpa, hpb, hh, hlen]

theorem process_price_update_short_history (sqrtFn : ℚ → ℚ)
    (cfg : MonitorConfig) (st : SymbolState) (u : PriceUpdate) (h : List ℚ)
    (hh : st.spread_history = some h) (hlen : h.length < 10) :
    (process_price_update sqrtFn true cfg st u).1.spread_history = some h ∧
    (process_price_update sqrtFn true cfg st u).2.1 = none ∧
    (process_price_update sqrtFn true cfg st u).2.2 = none := by
  obtain ⟨side, quote, now⟩ := u
  cases side with
  | a =>
    unfold process_price_update
    dsimp only
    rcases check_arb_short_history sqrtFn cfg { st with price_a := some quote }
        now h hh hlen with hcase | hcase <;> rw [hcase] <;> exact ⟨hh, rfl, rfl⟩
  | b =>
    unfold process_price_update
    dsimp only
    rcases check_arb_short_history sqrtFn cfg { st with price_b := some quote }
        now h hh hlen with hcase | hcase <;> rw [hcase] <;> exact ⟨hh, rfl, rfl⟩
  | other =>
    unfold process_price_update
    dsimp only
    rcases check_arb_short_history sqrtFn cfg st now h hh hlen with
      hcase | hcase <;> rw [hcase] <;> exact ⟨hh, rfl, rfl⟩

end LiveMonitor

/-- C7: when a symbol starts from a baseline of fewer than 10 samples
(in particular the empty baseline left by a failed preload), no spread
update and no decision is ever emitted — but contrary to the claim the
baseline can never grow from live updates: the minimum-sample check of
lines 335-337 returns before the history-maintenance step of lines
386-401, so over every sequence of price updates the stored history
stays exactly as it was and scores are never emitted. -/
theorem C7_empty_baseline_never_grows (sqrtFn : ℚ → ℚ)
    (cfg : LiveMonitor.MonitorConfig) (st : LiveMonitor.SymbolState)
    (us : List LiveMonitor.PriceUpdate) (h : List ℚ)
    (hh : st.spread_history = some h) (hlen : h.length < 10) :
    (LiveMonitor.process_price_updates sqrtFn true cfg st us).1.spread_history =
      some h ∧
    (LiveMonitor.process_price_updates sqrtFn true cfg st us).2.1 = [] ∧
    (LiveMonitor.process_price_updates sqrtFn true cfg st us).2.2 = [] := by
  induction us generalizing st with
  | nil => exact ⟨hh, rfl, rfl⟩
  | cons u us ih =>
    rw [LiveMonitor.process_price_updates_cons]
    have hu := LiveMonitor.process_price_update_short_history sqrtFn cfg st u h hh hlen
    have hi := ih (LiveMonitor.process_price_update sqrtFn true cfg st u).1 hu.1
    refine ⟨hi.1, ?_, ?_⟩
    · show (LiveMonitor.process_price_update sqrtFn true cfg st u).2.1.toList ++ _ = _
      rw [hu.2.1, hi.2.1]
      rfl
    · show (LiveMonitor.process_price_update sqrtFn true cfg st u).2.2.toList ++ _ = _
      rw [hu.2.2, hi.2.2]
      rfl

/-- Witness for C7: a symbol whose preload failed (empty stored history,
update timer initialized), with an active pair and two live ticks — one
per exchange, both far past the refresh interval: the history stays
empty and nothing is emitted. -/
theorem C7_empty_baseline_never_grows_witness :
    (LiveMonitor.process_price_updates (fun x => x) true
        ⟨0, 0, 100, 300, ⟨2, 1/2, 3, 5⟩⟩
        ⟨true, none, none, some [], some 0, none, none⟩
        [⟨LiveMonitor.TickSide.a, ⟨100, 101, 100⟩, 1000⟩,
         ⟨LiveMonitor.TickSide.b, ⟨100, 101, 100⟩, 2000⟩]).1.spread_history =
      some [] ∧
    (LiveMonitor.process_price_updates (fun x => x) true
        ⟨0, 0, 100, 300, ⟨2, 1/2, 3, 5⟩⟩
        ⟨true, none, none, some [], some 0, none, none⟩
        [⟨LiveMonitor.TickSide.a, ⟨100, 101, 100⟩, 1000⟩,
         ⟨LiveMonitor.TickSide.b, ⟨100, 101, 100⟩, 2000⟩]).2.1 = [] ∧
    (LiveMonitor.process_price_updates (fun x => x) true
        ⟨0, 0, 100, 300, ⟨2, 1/2, 3, 5⟩⟩
        ⟨true, none, none, some [], some 0, none, none⟩
        [⟨LiveMonitor.TickSide.a, ⟨100, 101, 100⟩, 1000⟩,
         ⟨LiveMonitor.TickSide.b, ⟨100, 101, 100⟩, 2000⟩]).2.2 = [] :=
  C7_empty_baseline_never_grows (fun x => x) ⟨0, 0, 100, 300, ⟨2, 1/2, 3, 5⟩⟩
    ⟨true, none, none, some [], some 0, none, none⟩
    [⟨LiveMonitor.TickSide.a, ⟨100, 101, 100⟩, 1000⟩,
     ⟨LiveMonitor.TickSide.b, ⟨100, 101, 100⟩, 2000⟩] [] rfl (by simp)

/-- C4: `LiveMonitor.__init__` never assigns the `in_position`
attribute, so on a fresh monitor every arbitrage check that reaches the
position-tracking step (active pair and both quotes cached) raises
AttributeError; the processing loop catches the exception, so no
spread-update event and no ENTRY/EXIT decision is ever emitted over any
sequence of price updates. -/
theorem C4_in_position_uninitialized :
    ("in_position" ∉ LiveMonitor.initAttrs) ∧
    (∀ (sqrtFn : ℚ → ℚ) (cfg : LiveMonitor.MonitorConfig)
       (st : LiveMonitor.SymbolState) (now : ℚ) (qa qb : Quote),
      st.pair_active = true → st.price_a = some qa → st.price_b = some qb →
      LiveMonitor.check_arbitrage_opportunity sqrtFn
          (LiveMonitor.initAttrs.contains "in_position") cfg st now =
        .error "AttributeError: in_position") ∧
    (∀ (sqrtFn : ℚ → ℚ) (cfg : LiveMonitor.MonitorConfig)
       (st : LiveMonitor.SymbolState) (us : List LiveMonitor.PriceUpdate),
      (LiveMonitor.process_price_updates sqrtFn
          (LiveMonitor.initAttrs.contains "in_position") cfg st us).2.1 = [] ∧
      (LiveMonitor.process_price_updates sqrtFn
          (LiveMonitor.initAttrs.contains "in_position") cfg st us).2.2 = []) := by
  have hc : LiveMonitor.initAttrs.contains "in_position" = false := by decide
  refine ⟨by decide, ?_, ?_⟩
  · intro sqrtFn cfg st now qa qb hpair hpa hpb
    rw [hc]
    exact LiveMonitor.check_arb_no_attr sqrtFn cfg st now qa qb hpair hpa hpb
  · intro sqrtFn cfg st us
    rw [hc]
    induction us generalizing st with
    | nil => exact ⟨rfl, rfl⟩
    | cons u us ih =>
      rw [LiveMonitor.process_price_updates_cons]
      have hu := LiveMonitor.process_price_update_no_attr sqrtFn cfg st u
      have hi := ih (LiveMonitor.process_price_update sqrtFn false cfg st u).1
      refine ⟨?_, ?_⟩
      · show (LiveMonitor.process_price_update sqrtFn false cfg st u).2.1.toList ++ _ = _
        rw [hu.1, hi.1]
        rfl
      · show (LiveMonitor.process_price_update sqrtFn false cfg st u).2.2.toList ++ _ = _
        rw [hu.2, hi.2]
        rfl

/-- Witness for C4: a fresh monitor (attribute set exactly as left by
the constructor) with an active pair and both quotes cached raises
AttributeError in the arbitrage check. -/
theorem C4_in_position_uninitialized_witness :
    LiveMonitor.check_arbitrage_opportunity (fun x => x)
        (LiveMonitor.initAttrs.contains "in_position")
        ⟨0, 0, 100, 300, ⟨2, 1/2, 3, 5⟩⟩
        ⟨true, some ⟨100, 101, 100⟩, some ⟨100, 101, 100⟩, some [], none, none, none⟩
        0 = .error "AttributeError: in_position" :=
  C4_in_position_uninitialized.2.1 (fun x => x) ⟨0, 0, 100, 300, ⟨2, 1/2, 3, 5⟩⟩
    ⟨true, some ⟨100, 101, 100⟩, some ⟨100, 101, 100⟩, some [], none, none, none⟩
    0 ⟨100, 101, 100⟩ ⟨100, 101, 100⟩ rfl rfl rfl
